import Mathlib

/-!
Verification of the coordination layer of the peerlinks desktop backend
(src/electron/network.js).  The mutable registries of the `Network` class
(channel list, identity list, pending-invite map, dirty-flag set, update-loop
registry, waiter bookkeeping) are embedded as a `NetworkState` record, and the
IPC handlers and supervisor steps are translated into pure state-passing
functions.  Asynchronous handlers that suspend at an `await` of a waiter are
split into a begin phase (up to the suspension) and a resume phase (from the
settling of the waiter), matching the cooperative single-threaded execution
model of the source.
-/

namespace PeerLinks

/-- A channel of the protocol object: its identifying key (modelled as a
natural number standing for the hex key bytes) and its display name. -/
structure Channel where
  id : Nat
  name : String
deriving DecidableEq

/-- An identity of the protocol object: its public key and display name. -/
structure Identity where
  publicKey : Nat
  name : String
deriving DecidableEq

/-- A pending-invite registry entry, as built by the requestInvite handler:
the request id, the cached base58-encoded request, and the currently
outstanding waiter (if a waitForInvite call is suspended on it). -/
structure PendingInvite where
  requestId : Nat
  encoded : Nat
  waiter : Option Nat
deriving DecidableEq

/-- The mutable state of the `Network` instance that the verified handlers
touch: the channel and identity lists of the protocol object, the
pending-invite map, the dirty-flag set `updatedChannels`, the update-loop
registry, plus bookkeeping for waiters (which waiter ids were cancelled, a
log of waitlist resolutions, and a fresh-waiter counter). -/
structure NetworkState where
  channels : List Channel
  identities : List Identity
  pendingInvites : List (Nat × PendingInvite)
  updatedChannels : List Nat
  updateLoops : List Nat
  cancelled : List Nat
  resolutions : List (String × Bool)
  nextWaiter : Nat
deriving DecidableEq

/-- Lookup in the pending-invite map (JS `Map.get`). -/
def pLookup : List (Nat × PendingInvite) → Nat → Option PendingInvite
  | [], _ => none
  | (k, v) :: rest, key => if k = key then some v else pLookup rest key

/-- Insert or overwrite in the pending-invite map (JS `Map.set`). -/
def pSet : List (Nat × PendingInvite) → Nat → PendingInvite → List (Nat × PendingInvite)
  | [], key, v => [(key, v)]
  | (k, w) :: rest, key, v =>
    if k = key then (key, v) :: rest else (k, w) :: pSet rest key v

/-- Deletion from the pending-invite map (JS `Map.delete`). -/
def pDelete : List (Nat × PendingInvite) → Nat → List (Nat × PendingInvite)
  | [], _ => []
  | (k, w) :: rest, key =>
    if k = key then pDelete rest key else (k, w) :: pDelete rest key

/-- The `channelById` helper of initIPC: find a channel by its id. -/
def channelById (st : NetworkState) (channelId : Nat) : Option Channel :=
  st.channels.find? (fun c => c.id == channelId)

/-- The `identityByKey` helper of initIPC: find an identity by public key. -/
def identityByKey (st : NetworkState) (key : Nat) : Option Identity :=
  st.identities.find? (fun i => i.publicKey == key)

/-- The protocol object `getChannel`: find a channel by name. -/
def getChannel (st : NetworkState) (name : String) : Option Channel :=
  st.channels.find? (fun c => c.name == name)

/-- The protocol object `getIdentity`: find an identity by name. -/
def getIdentity (st : NetworkState) (name : String) : Option Identity :=
  st.identities.find? (fun i => i.name == name)

/-- The update topic string for a channel id (`update:` + hex id). -/
def updateTopic (cid : Nat) : String :=
  "update:" ++ toString cid

/-- Cancelling a waiter: record its id among the cancelled waiters. -/
def cancelWaiter (st : NetworkState) (w : Nat) : NetworkState :=
  { st with cancelled := w :: st.cancelled }

/-- Set-style removal from a WeakSet modelled as a list of channel ids. -/
def setRemove (l : List Nat) (x : Nat) : List Nat :=
  l.filter (fun y => !(y == x))

/-- Set-style insertion into a WeakSet modelled as a list of channel ids. -/
def setInsert (l : List Nat) (x : Nat) : List Nat :=
  if x ∈ l then l else x :: l

/-- First step of the removeIdentityPair handler: look the channel up and,
when found, remove it from the protocol object.  Returns the lookup result
(needed again further down in the handler) together with the state. -/
def removeChannelStep (st : NetworkState) (channelId : Nat) :
    Option Channel × NetworkState :=
  match channelById st channelId with
  | some c => (some c, { st with channels := st.channels.erase c })
  | none => (none, st)

/-- Second step of the removeIdentityPair handler: look the identity up and,
when found, remove it from the protocol object. -/
def removeIdentityStep (st : NetworkState) (identityKey : Nat) : NetworkState :=
  match identityByKey st identityKey with
  | some i => { st with identities := st.identities.erase i }
  | none => st

/-- Final step of the removeIdentityPair handler: when a pending invite
exists for the identity key and has an outstanding waiter, cancel that
waiter.  The map entry itself is never deleted. -/
def cancelPendingInviteWaiter (st : NetworkState) (identityKey : Nat) :
    NetworkState :=
  match pLookup st.pendingInvites identityKey with
  | some pending =>
    match pending.waiter with
    | some w => cancelWaiter st w
    | none => st
  | none => st

/-- The removeIdentityPair handler.  It removes the channel (when found) and
the identity (when found), then unconditionally dereferences `channel.id` to
resolve the update topic with `false` — a TypeError when the channel lookup
found nothing — and finally cancels the waiter of a pending invite for the
identity key (without deleting the map entry). -/
def removeIdentityPair (st : NetworkState) (channelId identityKey : Nat) :
    Except String Unit × NetworkState :=
  match removeChannelStep st channelId with
  | (channel, st1) =>
    let st2 := removeIdentityStep st1 identityKey
    match channel with
    | none =>
      (Except.error ("TypeError: Cannot read property id of undefined"), st2)
    | some c =>
      let st3 :=
        { st2 with resolutions := st2.resolutions ++ [(updateTopic c.id, false)] }
      (Except.ok (), cancelPendingInviteWaiter st3 identityKey)

/-- Outcome of awaiting a waitlist entry: resolved with a boolean value, or
timed out. -/
inductive WaitOutcome where
  | resolved (v : Bool)
  | timedOut
deriving DecidableEq

/-- Result of the synchronous part of the waitForIncomingMessage handler:
channel not found (throw), immediate `true` with the dirty flag cleared, or a
waiter registered on the update topic with the caller-supplied timeout. -/
inductive WFIMStart where
  | notFound (message : String)
  | immediateTrue (st : NetworkState)
  | registered (topic : String) (timeout : Nat)
deriving DecidableEq

/-- The waitForIncomingMessage handler up to its suspension point: throws if
the channel is unknown; if the dirty flag is set, clears it and returns true
immediately; otherwise registers a waiter on the update topic of the channel
with the caller-supplied timeout. -/
def waitForIncomingMessageStart (st : NetworkState) (channelId timeout : Nat) :
    WFIMStart :=
  match channelById st channelId with
  | none => WFIMStart.notFound ("Channel not found: " ++ toString channelId)
  | some c =>
    if c.id ∈ st.updatedChannels then
      WFIMStart.immediateTrue
        { st with updatedChannels := setRemove st.updatedChannels c.id }
    else
      WFIMStart.registered (updateTopic channelId) timeout

/-- The value a suspended waitForIncomingMessage call sees from its waiter:
the resolved boolean, or a timeout error thrown by the waitlist. -/
def awaitOutcome (o : WaitOutcome) : Except String Bool :=
  match o with
  | WaitOutcome.resolved v => Except.ok v
  | WaitOutcome.timedOut => Except.error ("Timed out")

/-- The waitForIncomingMessage handler from its suspension point: on a
resolution it deletes the dirty flag again and returns the resolved value;
on timeout the thrown error propagates (the flag is untouched). -/
def waitForIncomingMessageResume (st : NetworkState) (c : Channel)
    (o : WaitOutcome) : Except String Bool × NetworkState :=
  match o with
  | WaitOutcome.resolved v =>
    (Except.ok v, { st with updatedChannels := setRemove st.updatedChannels c.id })
  | WaitOutcome.timedOut => (Except.error ("Timed out"), st)

/-- Entry into runUpdateLoop: nothing happens when the channel is no longer
in the channel list or when the registry already has an entry for it;
otherwise the channel is registered and the external blocking wait is issued
(the returned boolean says whether a wait was issued). -/
def runUpdateLoopStart (st : NetworkState) (cid : Nat) : Bool × NetworkState :=
  if st.channels.any (fun c => c.id == cid) then
    if cid ∈ st.updateLoops then
      (false, st)
    else
      (true, { st with updateLoops := cid :: st.updateLoops })
  else
    (false, st)

/-- A successful wake of the update loop of a channel: the channel is marked
dirty, the update topic is resolved with `true`, the registry entry is
deleted (finally block), and the loop restarts by re-entering
runUpdateLoopStart (the tail recursion of the source). -/
def runUpdateLoopSuccess (st : NetworkState) (cid : Nat) : Bool × NetworkState :=
  let st1 :=
    { st with
        updatedChannels := setInsert st.updatedChannels cid,
        resolutions := st.resolutions ++ [(updateTopic cid, true)] }
  let st2 := { st1 with updateLoops := st1.updateLoops.erase cid }
  runUpdateLoopStart st2 cid

/-- A failing wake of the update loop of a channel: the registry entry is
deleted (finally block) and the loop terminates. -/
def runUpdateLoopFail (st : NetworkState) (cid : Nat) : NetworkState :=
  { st with updateLoops := st.updateLoops.erase cid }

/-- Events driving the update-loop registry: a start request and the two
possible wakes of a suspended loop. -/
inductive LoopEvent where
  | startReq (cid : Nat)
  | successWake (cid : Nat)
  | failWake (cid : Nat)
deriving DecidableEq

/-- Interleaved execution step of the update-loop machinery. -/
def loopStep (st : NetworkState) : LoopEvent → NetworkState
  | LoopEvent.startReq cid => (runUpdateLoopStart st cid).2
  | LoopEvent.successWake cid => (runUpdateLoopSuccess st cid).2
  | LoopEvent.failWake cid => runUpdateLoopFail st cid

/-- The registry invariant: at most one update-loop entry per channel. -/
def AtMostOneLoopPerChannel (st : NetworkState) : Prop :=
  ∀ cid, st.updateLoops.count cid ≤ 1

/-- The requestInvite handler.  The `requestId` and `encodedRequest`
arguments stand for the output of the issuance primitive
`identity.requestInvite` (and its base58 encoding) that would be consumed on
this call if no cached entry exists.  With a cached entry, the cached encoded
request is returned and nothing is touched. -/
def requestInvite (st : NetworkState) (identityKey requestId encodedRequest : Nat) :
    Except String (Nat × NetworkState) :=
  match identityByKey st identityKey with
  | none => Except.error ("Identity not found: " ++ toString identityKey)
  | some _ =>
    match pLookup st.pendingInvites identityKey with
    | some existing => Except.ok (existing.encoded, st)
    | none =>
      Except.ok (encodedRequest,
        { st with
            pendingInvites :=
              pSet st.pendingInvites identityKey
                { requestId := requestId, encoded := encodedRequest, waiter := none } })

/-- The waitForInvite handler up to its suspension point: throws when the
identity or the pending invite is missing; cancels an already existing
waiter; stores a freshly allocated waiter (the swarm waitForInvite handle)
in the entry and suspends on it.  Returns the new waiter id and the updated
state. -/
def waitForInviteBegin (st : NetworkState) (identityKey : Nat) :
    Except String (Nat × NetworkState) :=
  match identityByKey st identityKey with
  | none => Except.error ("Identity not found: " ++ toString identityKey)
  | some identity =>
    match pLookup st.pendingInvites identityKey with
    | none => Except.error ("No pending invites for: " ++ identity.name)
    | some entry =>
      let st1 :=
        match entry.waiter with
        | some w => cancelWaiter st w
        | none => st
      let w := st1.nextWaiter
      Except.ok (w,
        { st1 with
            pendingInvites :=
              pSet st1.pendingInvites identityKey { entry with waiter := some w },
            nextWaiter := st1.nextWaiter + 1 })

/-- The waitForInvite handler resumed after its waiter settled with an error
(cancellation or timeout): the catch block returns the sentinel `false`, and
the finally block clears the waiter field of the entry; the entry itself is
not deleted. -/
def waitForInviteResumeError (st : NetworkState) (identityKey : Nat) :
    Except String Bool × NetworkState :=
  let st1 :=
    match pLookup st.pendingInvites identityKey with
    | some entry =>
      { st with
          pendingInvites :=
            pSet st.pendingInvites identityKey { entry with waiter := none } }
    | none => st
  (Except.ok false, st1)

/-- Candidate channel names probed by the waitForInvite acceptance path:
the invite channel name itself, then the name with suffixes -1, -2, and so
on. -/
def candidateName (base : String) : Nat → String
  | 0 => base
  | k + 1 => base ++ "-" ++ toString (k + 1)

/-- A candidate name is acceptable when no existing channel carries it, or
when the existing channel of that name has the invite channel public key
(in which case it is reused). -/
def goodCandidate (st : NetworkState) (channelPubKey : Nat) (name : String) : Bool :=
  match getChannel st name with
  | none => true
  | some existing => existing.id == channelPubKey

/-- The channel-name probing loop of the waitForInvite acceptance path,
with explicit fuel for the unbounded source loop: starting from candidate
`counter`, return the first candidate that is free or owned by the invite
channel key. -/
def findChannelName (st : NetworkState) (base : String) (channelPubKey : Nat) :
    Nat → Nat → Option String
  | 0, _ => none
  | fuel + 1, counter =>
    let name := candidateName base counter
    match getChannel st name with
    | none => some name
    | some existing =>
      if existing.id = channelPubKey then some name
      else findChannelName st base channelPubKey fuel (counter + 1)

/-- A handler error as observed by the request router: the thrown message
and stack. -/
structure HandlerError where
  message : String
  stack : String
deriving DecidableEq

/-- An outbound response of the request router, tagged with the sequence
number of the request: a success payload, or a failure with a message and an
optional stack. -/
inductive Response where
  | payload (seq : Nat) (value : Nat)
  | failure (seq : Nat) (message : String) (stack : Option String)
deriving DecidableEq

/-- The sequence tag of a response. -/
def Response.seqOf : Response → Nat
  | Response.payload s _ => s
  | Response.failure s _ _ => s

/-- The `handle` wrapper of initIPC, given the settled outcome of the
handler: when the readiness gate fails, one `Not ready` error response is
emitted and the handler is not consulted; otherwise the handler outcome is
converted into one success or one error response.  The list of emitted
responses is returned. -/
def handleRequest (isReady requireReady : Bool) (seq : Nat)
    (handlerOutcome : Except HandlerError Nat) : List Response :=
  if !isReady && requireReady then
    [Response.failure seq ("Not ready") none]
  else
    match handlerOutcome with
    | Except.ok v => [Response.payload seq v]
    | Except.error e => [Response.failure seq e.message (some e.stack)]

/-- A registration made by initIPC: the operation name and whether the
readiness gate applies (the `requireReady` argument of `handle`, which
defaults to true). -/
structure Registration where
  name : String
  requireReady : Bool
deriving DecidableEq

/-- The registrations performed by initIPC, in source order.  Only `init`,
`erase` and `getStatus` pass `false` for `requireReady`. -/
def registrations : List Registration :=
  [⟨"init", false⟩, ⟨"erase", false⟩, ⟨"getStatus", false⟩,
   ⟨"getChannels", true⟩, ⟨"getIdentities", true⟩, ⟨"createIdentityPair", true⟩,
   ⟨"feedFromPublicKey", true⟩, ⟨"removeIdentityPair", true⟩,
   ⟨"updateChannelMetadata", true⟩, ⟨"getMessageCount", true⟩,
   ⟨"getReverseMessagesAtOffset", true⟩, ⟨"waitForIncomingMessage", true⟩,
   ⟨"postMessage", true⟩, ⟨"requestInvite", true⟩, ⟨"waitForInvite", true⟩,
   ⟨"invite", true⟩, ⟨"sendInvite", true⟩, ⟨"acceptInvite", true⟩,
   ⟨"renameIdentityPair", true⟩, ⟨"waitForChainMapUpdate", true⟩,
   ⟨"computeChainMap", true⟩]

/-- The pre-readiness allow-list named by the specification: the operations
that are handled even before initialization completes. -/
def preReadyAllowList : List String :=
  ["init", "erase", "getStatus"]

/-- Routing decision of the `handle` wrapper before the handler runs: reject
with a tagged error, or invoke the handler for this sequence number. -/
inductive Routing where
  | reject (seq : Nat) (message : String)
  | invoke (seq : Nat)
deriving DecidableEq

/-- The readiness gate of the `handle` wrapper: a registered operation is
rejected with a tagged `Not ready` error when the system is not ready and
the registration requires readiness; otherwise its handler is invoked. -/
def route (isReady : Bool) (r : Registration) (seq : Nat) : Routing :=
  if !isReady && r.requireReady then Routing.reject seq ("Not ready")
  else Routing.invoke seq

/-- The renameIdentityPair handler: optional channel and identity lookups,
the four guard checks of the source in order (channel not found, identity
not found, newName taken by a channel, newName taken by an identity), and
only then the renames.  State is threaded so that any mutation before a
throw would be visible. -/
def renameIdentityPair (st : NetworkState) (channelId identityKey : Option Nat)
    (newName : String) : Except String Unit × NetworkState :=
  let channel :=
    match channelId with
    | some cid => channelById st cid
    | none => none
  let identity :=
    match identityKey with
    | some key => identityByKey st key
    | none => none
  if channelId.isSome && channel.isNone then
    (Except.error ("Channel not found"), st)
  else if identityKey.isSome && identity.isNone then
    (Except.error ("Identity not found"), st)
  else if (getChannel st newName).isSome then
    (Except.error ("Channel with name: " ++ newName ++ " already exists"), st)
  else if (getIdentity st newName).isSome then
    (Except.error ("Identity with name: " ++ newName ++ " already exists"), st)
  else
    let st1 :=
      match channel with
      | some c =>
        { st with
            channels :=
              st.channels.map (fun x => if x == c then { x with name := newName } else x) }
      | none => st
    let st2 :=
      match identity with
      | some i =>
        { st1 with
            identities :=
              st1.identities.map (fun x => if x == i then { x with name := newName } else x) }
      | none => st1
    (Except.ok (), st2)

/-- A concrete state for the removeIdentityPair claims: one channel, one
identity, and a pending invite for that identity with an outstanding
waiter. -/
def c1State : NetworkState :=
  { channels := [⟨1, "general"⟩],
    identities := [⟨2, "alice"⟩],
    pendingInvites := [(2, ⟨10, 20, some 0⟩)],
    updatedChannels := [],
    updateLoops := [],
    cancelled := [],
    resolutions := [],
    nextWaiter := 1 }

/-- A concrete state for the update-loop claim: one channel whose loop is
registered. -/
def c4State : NetworkState :=
  { channels := [⟨7, "chan"⟩],
    identities := [],
    pendingInvites := [],
    updatedChannels := [],
    updateLoops := [7],
    cancelled := [],
    resolutions := [],
    nextWaiter := 0 }

/-- A concrete state for the channel-name probing claim: a single existing
channel named general with key 0. -/
def c6State : NetworkState :=
  { channels := [⟨0, "general"⟩],
    identities := [],
    pendingInvites := [],
    updatedChannels := [],
    updateLoops := [],
    cancelled := [],
    resolutions := [],
    nextWaiter := 0 }

/-- A concrete state for the dirty-flag claim: one channel whose dirty flag
is set. -/
def c3State : NetworkState :=
  { channels := [⟨3, "chat"⟩],
    identities := [],
    pendingInvites := [],
    updatedChannels := [3],
    updateLoops := [],
    cancelled := [],
    resolutions := [],
    nextWaiter := 0 }

/-- A concrete state for the invite-coordinator claims: one identity with a
pending invite whose waiter is outstanding. -/
def c7State : NetworkState :=
  { channels := [],
    identities := [⟨2, "alice"⟩],
    pendingInvites := [(2, ⟨10, 20, some 0⟩)],
    updatedChannels := [],
    updateLoops := [],
    cancelled := [],
    resolutions := [],
    nextWaiter := 1 }

/-- A concrete state for the requestInvite idempotence claim: one identity
and no pending invite yet. -/
def c8State : NetworkState :=
  { channels := [],
    identities := [⟨2, "alice"⟩],
    pendingInvites := [],
    updatedChannels := [],
    updateLoops := [],
    cancelled := [],
    resolutions := [],
    nextWaiter := 0 }

/-- A concrete state for the rename claim: a channel named general and an
identity named alice. -/
def c10State : NetworkState :=
  { channels := [⟨1, "general"⟩],
    identities := [⟨2, "alice"⟩],
    pendingInvites := [],
    updatedChannels := [],
    updateLoops := [],
    cancelled := [],
    resolutions := [],
    nextWaiter := 0 }

/-! ## Helper lemmas -/

theorem pLookup_pSet_self (l : List (Nat × PendingInvite)) (key : Nat)
    (v : PendingInvite) : pLookup (pSet l key v) key = some v := by
  induction l with
  | nil => simp [pSet, pLookup]
  | cons hd tl ih =>
    obtain ⟨k, w⟩ := hd
    by_cases h : k = key
    · simp [pSet, pLookup, h]
    · simp [pSet, pLookup, h, ih]

theorem removeChannelStep_pendingInvites (st : NetworkState) (channelId : Nat) :
    (removeChannelStep st channelId).2.pendingInvites = st.pendingInvites := by
  unfold removeChannelStep
  cases channelById st channelId <;> rfl

theorem removeChannelStep_fst (st : NetworkState) (channelId : Nat) :
    (removeChannelStep st channelId).1 = channelById st channelId := by
  unfold removeChannelStep
  cases channelById st channelId <;> rfl

theorem removeChannelStep_cancelled (st : NetworkState) (channelId : Nat) :
    (removeChannelStep st channelId).2.cancelled = st.cancelled := by
  unfold removeChannelStep
  cases channelById st channelId <;> rfl

theorem removeIdentityStep_pendingInvites (st : NetworkState) (identityKey : Nat) :
    (removeIdentityStep st identityKey).pendingInvites = st.pendingInvites := by
  unfold removeIdentityStep
  cases identityByKey st identityKey <;> rfl

theorem removeIdentityStep_cancelled (st : NetworkState) (identityKey : Nat) :
    (removeIdentityStep st identityKey).cancelled = st.cancelled := by
  unfold removeIdentityStep
  cases identityByKey st identityKey <;> rfl

theorem cancelPendingInviteWaiter_pendingInvites (st : NetworkState)
    (identityKey : Nat) :
    (cancelPendingInviteWaiter st identityKey).pendingInvites =
      st.pendingInvites := by
  unfold cancelPendingInviteWaiter
  cases hp : pLookup st.pendingInvites identityKey with
  | none => rfl
  | some pending =>
    obtain ⟨rid, enc, pw⟩ := pending
    cases pw <;> rfl

theorem cancelPendingInviteWaiter_cancels (st : NetworkState)
    (identityKey : Nat) (p : PendingInvite) (w : Nat)
    (hp : pLookup st.pendingInvites identityKey = some p)
    (hw : p.waiter = some w) :
    w ∈ (cancelPendingInviteWaiter st identityKey).cancelled := by
  obtain ⟨rid, enc, pw⟩ := p
  change pw = some w at hw
  subst hw
  unfold cancelPendingInviteWaiter
  rw [hp]
  exact List.mem_cons_self w st.cancelled

theorem removeChannelStep_resolutions (st : NetworkState) (channelId : Nat) :
    (removeChannelStep st channelId).2.resolutions = st.resolutions := by
  unfold removeChannelStep
  cases channelById st channelId <;> rfl

theorem removeIdentityStep_resolutions (st : NetworkState) (identityKey : Nat) :
    (removeIdentityStep st identityKey).resolutions = st.resolutions := by
  unfold removeIdentityStep
  cases identityByKey st identityKey <;> rfl

theorem cancelPendingInviteWaiter_resolutions (st : NetworkState)
    (identityKey : Nat) :
    (cancelPendingInviteWaiter st identityKey).resolutions = st.resolutions := by
  unfold cancelPendingInviteWaiter
  cases hp : pLookup st.pendingInvites identityKey with
  | none => rfl
  | some pending =>
    obtain ⟨rid, enc, pw⟩ := pending
    cases pw <;> rfl

theorem removeIdentityPair_eq_of_found (st : NetworkState)
    (channelId identityKey : Nat) (c : Channel)
    (hc : channelById st channelId = some c) :
    removeIdentityPair st channelId identityKey =
      (Except.ok (),
        cancelPendingInviteWaiter
          { removeIdentityStep { st with channels := st.channels.erase c }
              identityKey with
            resolutions :=
              (removeIdentityStep { st with channels := st.channels.erase c }
                identityKey).resolutions ++ [(updateTopic c.id, false)] }
          identityKey) := by
  unfold removeIdentityPair removeChannelStep
  rw [hc]

theorem runUpdateLoopStart_resolutions (st : NetworkState) (cid : Nat) :
    (runUpdateLoopStart st cid).2.resolutions = st.resolutions := by
  unfold runUpdateLoopStart
  split
  · split <;> rfl
  · rfl

/-! ## Claim C1 -/

/-- Claim C1 (amended): for every identity key with a PendingInvite entry and
an existing referenced channel, after removeIdentityPair completes any
outstanding invite waiter has been cancelled, but the pending-invite registry
still contains the entry for that identity key unchanged — the handler only
cancels the waiter and never deletes the entry. -/
theorem removeIdentityPair_cancels_waiter_keeps_entry
    (st : NetworkState) (channelId identityKey : Nat) (c : Channel)
    (p : PendingInvite)
    (hc : channelById st channelId = some c)
    (hp : pLookup st.pendingInvites identityKey = some p) :
    (removeIdentityPair st channelId identityKey).1 = Except.ok () ∧
    (∀ w, p.waiter = some w →
      w ∈ (removeIdentityPair st channelId identityKey).2.cancelled) ∧
    (removeIdentityPair st channelId identityKey).2.pendingInvites =
      st.pendingInvites := by
  have hfst : (removeChannelStep st channelId).1 = some c := by
    rw [removeChannelStep_fst, hc]
  unfold removeIdentityPair
  cases hstep : removeChannelStep st channelId with
  | mk channel st1 =>
    have hch : channel = some c := by rw [← hfst, hstep]
    subst hch
    have hpi1 : st1.pendingInvites = st.pendingInvites := by
      have := removeChannelStep_pendingInvites st channelId
      rw [hstep] at this
      exact this
    have hpi2 : (removeIdentityStep st1 identityKey).pendingInvites =
        st.pendingInvites := by
      rw [removeIdentityStep_pendingInvites, hpi1]
    refine ⟨rfl, ?_, ?_⟩
    · intro w hw
      exact cancelPendingInviteWaiter_cancels _ identityKey p w
        (by simpa [hpi2] using hp) hw
    · simpa [hpi2] using
        cancelPendingInviteWaiter_pendingInvites
          { removeIdentityStep st1 identityKey with
            resolutions := (removeIdentityStep st1 identityKey).resolutions ++
              [(updateTopic c.id, false)] } identityKey

/-- Claim C1 counterexample: in a concrete state with a channel, an identity
and a pending invite with an outstanding waiter, removeIdentityPair completes
successfully yet the pending-invite registry still holds the entry for the
identity key, contradicting the claim that no entry remains. -/
theorem removeIdentityPair_entry_remains_cex :
    (removeIdentityPair c1State 1 2).1 = Except.ok () ∧
    pLookup (removeIdentityPair c1State 1 2).2.pendingInvites 2 =
      some ⟨10, 20, some 0⟩ ∧
    pLookup (removeIdentityPair c1State 1 2).2.pendingInvites 2 ≠ none := by
  refine ⟨rfl, by decide, by decide⟩

/-- Claim C1 witness: the amended theorem applied to the concrete state. -/
theorem removeIdentityPair_cancels_waiter_keeps_entry_witness :
    channelById c1State 1 = some ⟨1, "general"⟩ ∧
    pLookup c1State.pendingInvites 2 = some ⟨10, 20, some 0⟩ ∧
    ((removeIdentityPair c1State 1 2).1 = Except.ok () ∧
     (∀ w, (⟨10, 20, some 0⟩ : PendingInvite).waiter = some w →
       w ∈ (removeIdentityPair c1State 1 2).2.cancelled) ∧
     (removeIdentityPair c1State 1 2).2.pendingInvites = c1State.pendingInvites) :=
  ⟨by decide, by decide,
    removeIdentityPair_cancels_waiter_keeps_entry c1State 1 2 ⟨1, "general"⟩
      ⟨10, 20, some 0⟩ (by decide) (by decide)⟩

/-! ## Claim C2 -/

/-- Claim C2: the removeIdentityPair handler is claimed to never fail, yet
when the referenced channel does not exist the unconditional dereference of
the channel id (for the update-topic resolution) throws, so the handler
rejects: evaluated at a concrete state with no channel of id 5, the result
is an error. -/
theorem removeIdentityPair_throws_on_missing_channel :
    (removeIdentityPair c1State 5 2).1 =
      Except.error ("TypeError: Cannot read property id of undefined") := by
  rfl

/-! ## Claim C3 -/

theorem removeIdentityPair_resolutions (st : NetworkState)
    (channelId identityKey : Nat) (c : Channel)
    (hc : channelById st channelId = some c) :
    (removeIdentityPair st channelId identityKey).2.resolutions =
      st.resolutions ++ [(updateTopic c.id, false)] := by
  rw [removeIdentityPair_eq_of_found st channelId identityKey c hc]
  show (cancelPendingInviteWaiter _ identityKey).resolutions = _
  rw [cancelPendingInviteWaiter_resolutions]
  show (removeIdentityStep _ identityKey).resolutions ++ _ = _
  rw [removeIdentityStep_resolutions]

/-- Claim C3: for every channel known to the system, the
waitForIncomingMessage handler returns true immediately (without suspending)
and clears the dirty flag when the flag is set; otherwise it registers a
waiter on the update topic of the channel with the caller-supplied timeout,
and its result is that waiter's result — the resolved value (true on the
supervisor broadcast of an update, false on the resolution emitted when the
channel is removed and its loop terminates) or a timeout error. -/
theorem waitForIncomingMessage_contract (st : NetworkState)
    (channelId timeout : Nat) (c : Channel)
    (hc : channelById st channelId = some c) :
    (c.id ∈ st.updatedChannels →
      waitForIncomingMessageStart st channelId timeout =
        WFIMStart.immediateTrue
          { st with updatedChannels := setRemove st.updatedChannels c.id } ∧
      c.id ∉ setRemove st.updatedChannels c.id) ∧
    (c.id ∉ st.updatedChannels →
      waitForIncomingMessageStart st channelId timeout =
        WFIMStart.registered (updateTopic channelId) timeout) ∧
    (∀ (st2 : NetworkState) (o : WaitOutcome),
      (waitForIncomingMessageResume st2 c o).1 = awaitOutcome o) ∧
    awaitOutcome (WaitOutcome.resolved true) = Except.ok true ∧
    awaitOutcome (WaitOutcome.resolved false) = Except.ok false ∧
    awaitOutcome WaitOutcome.timedOut = Except.error ("Timed out") ∧
    (∀ st3 : NetworkState, (runUpdateLoopSuccess st3 c.id).2.resolutions =
      st3.resolutions ++ [(updateTopic c.id, true)]) ∧
    (∀ (st4 : NetworkState) (identityKey : Nat) (c4 : Channel),
      channelById st4 channelId = some c4 →
      (removeIdentityPair st4 channelId identityKey).2.resolutions =
        st4.resolutions ++ [(updateTopic c4.id, false)]) := by
  refine ⟨?_, ?_, ?_, rfl, rfl, rfl, ?_, ?_⟩
  · intro hmem
    constructor
    · unfold waitForIncomingMessageStart
      rw [hc]
      exact if_pos hmem
    · simp [setRemove, List.mem_filter]
  · intro hmem
    unfold waitForIncomingMessageStart
    rw [hc]
    exact if_neg hmem
  · intro st2 o
    cases o <;> rfl
  · intro st3
    unfold runUpdateLoopSuccess
    rw [runUpdateLoopStart_resolutions]
  · intro st4 identityKey c4 hc4
    exact removeIdentityPair_resolutions st4 channelId identityKey c4 hc4

/-- Claim C3 witness: the contract applied to a concrete state with the
dirty flag set on channel 3. -/
theorem waitForIncomingMessage_contract_witness :
    channelById c3State 3 = some ⟨3, "chat"⟩ ∧
    (3 ∈ c3State.updatedChannels) ∧
    (waitForIncomingMessageStart c3State 3 500 =
      WFIMStart.immediateTrue
        { c3State with updatedChannels := setRemove c3State.updatedChannels 3 } ∧
      (3 : Nat) ∉ setRemove c3State.updatedChannels 3) :=
  ⟨by decide, by decide,
    (waitForIncomingMessage_contract c3State 3 500 ⟨3, "chat"⟩ (by decide)).1
      (by decide)⟩

/-! ## Claim C4 -/

theorem count_erase_le (l : List Nat) (a b : Nat) :
    (l.erase a).count b ≤ l.count b := by
  induction l with
  | nil => simp
  | cons hd tl ih =>
    rw [List.erase_cons]
    split
    · simp [List.count_cons]
    · rw [List.count_cons, List.count_cons]
      omega

theorem runUpdateLoopStart_noop_of_mem (st : NetworkState) (cid : Nat)
    (h : cid ∈ st.updateLoops) :
    runUpdateLoopStart st cid = (false, st) := by
  unfold runUpdateLoopStart
  split <;> rfl

theorem runUpdateLoopStart_inv (st : NetworkState) (cid : Nat)
    (h : AtMostOneLoopPerChannel st) :
    AtMostOneLoopPerChannel (runUpdateLoopStart st cid).2 := by
  unfold runUpdateLoopStart
  split
  · split
    · exact h
    · rename_i hmem
      intro x
      show ((cid :: st.updateLoops).count x) ≤ 1
      by_cases hx : x = cid
      · subst hx
        have hz : st.updateLoops.count x = 0 := by
          rw [List.count_eq_zero]
          exact hmem
        rw [List.count_cons_self, hz]
      · rw [List.count_cons_of_ne hx]
        exact h x
  · exact h

theorem runUpdateLoopFail_inv (st : NetworkState) (cid : Nat)
    (h : AtMostOneLoopPerChannel st) :
    AtMostOneLoopPerChannel (runUpdateLoopFail st cid) := by
  intro x
  exact le_trans (count_erase_le st.updateLoops cid x) (h x)

theorem runUpdateLoopSuccess_inv (st : NetworkState) (cid : Nat)
    (h : AtMostOneLoopPerChannel st) :
    AtMostOneLoopPerChannel (runUpdateLoopSuccess st cid).2 := by
  unfold runUpdateLoopSuccess
  apply runUpdateLoopStart_inv
  intro x
  exact le_trans (count_erase_le _ cid x) (h x)

theorem loopStep_inv (st : NetworkState) (e : LoopEvent)
    (h : AtMostOneLoopPerChannel st) :
    AtMostOneLoopPerChannel (loopStep st e) := by
  cases e with
  | startReq cid => exact runUpdateLoopStart_inv st cid h
  | successWake cid => exact runUpdateLoopSuccess_inv st cid h
  | failWake cid => exact runUpdateLoopFail_inv st cid h

theorem foldl_loopStep_inv (events : List LoopEvent) :
    ∀ st : NetworkState, AtMostOneLoopPerChannel st →
      AtMostOneLoopPerChannel (events.foldl loopStep st) := by
  induction events with
  | nil => intro st h; exact h
  | cons e rest ih =>
    intro st h
    exact ih (loopStep st e) (loopStep_inv st e h)

/-- Claim C4: the update-loop registry holds at most one entry per channel
at all times — the invariant is preserved by every interleaving of start
requests and loop wakes — and a start request for a channel that already has
a registry entry returns immediately without issuing a second external
wait. -/
theorem updateLoop_registry_at_most_one :
    (∀ (st : NetworkState) (cid : Nat), cid ∈ st.updateLoops →
      runUpdateLoopStart st cid = (false, st)) ∧
    (∀ (st : NetworkState) (events : List LoopEvent),
      AtMostOneLoopPerChannel st →
      AtMostOneLoopPerChannel (events.foldl loopStep st)) :=
  ⟨runUpdateLoopStart_noop_of_mem,
   fun st events h => foldl_loopStep_inv events st h⟩

/-- Claim C4 witness: the theorem applied to a concrete registry state and a
concrete event interleaving. -/
theorem updateLoop_registry_at_most_one_witness :
    runUpdateLoopStart c4State 7 = (false, c4State) ∧
    AtMostOneLoopPerChannel
      ([LoopEvent.startReq 7, LoopEvent.successWake 7, LoopEvent.failWake 7,
        LoopEvent.startReq 7].foldl loopStep c4State) := by
  have hInv : AtMostOneLoopPerChannel c4State := by
    intro cid
    show List.count cid [7] ≤ 1
    rw [List.count_singleton']
    split <;> omega
  exact ⟨updateLoop_registry_at_most_one.1 c4State 7 (by decide),
         updateLoop_registry_at_most_one.2 c4State _ hInv⟩

/-! ## Claim C5 -/

/-- Claim C5: for every inbound request, the router emits exactly one
response tagged with the original sequence number — the handler value on
success, an error response carrying the error message (and stack) when the
handler throws or rejects, and a tagged `Not ready` error when the readiness
gate fails — so no handler fault escapes the router. -/
theorem handleRequest_exactly_one_tagged_response
    (isReady requireReady : Bool) (seq : Nat)
    (handlerOutcome : Except HandlerError Nat) :
    (∃ r, handleRequest isReady requireReady seq handlerOutcome = [r] ∧
      r.seqOf = seq) ∧
    (isReady = true ∨ requireReady = false →
      (∀ v, handlerOutcome = Except.ok v →
        handleRequest isReady requireReady seq handlerOutcome =
          [Response.payload seq v]) ∧
      (∀ e, handlerOutcome = Except.error e →
        handleRequest isReady requireReady seq handlerOutcome =
          [Response.failure seq e.message (some e.stack)])) ∧
    (isReady = false → requireReady = true →
      handleRequest isReady requireReady seq handlerOutcome =
        [Response.failure seq ("Not ready") none]) := by
  cases isReady <;> cases requireReady <;>
    cases handlerOutcome <;>
      simp [handleRequest, Response.seqOf]

/-- Claim C5 witness: the theorem applied at concrete requests, covering the
success, failure and not-ready shapes. -/
theorem handleRequest_exactly_one_tagged_response_witness :
    handleRequest true true 7 (Except.ok 3) = [Response.payload 7 3] ∧
    handleRequest true true 8 (Except.error ⟨"boom", "trace"⟩) =
      [Response.failure 8 ("boom") (some "trace")] ∧
    handleRequest false true 9 (Except.ok 3) =
      [Response.failure 9 ("Not ready") none] :=
  ⟨((handleRequest_exactly_one_tagged_response true true 7
      (Except.ok 3)).2.1 (Or.inl rfl)).1 3 rfl,
   ((handleRequest_exactly_one_tagged_response true true 8
      (Except.error ⟨"boom", "trace"⟩)).2.1 (Or.inl rfl)).2 ⟨"boom", "trace"⟩ rfl,
   (handleRequest_exactly_one_tagged_response false true 9
      (Except.ok 3)).2.2 rfl rfl⟩

/-! ## Claim C9 -/

theorem registrations_requireReady_iff :
    ∀ r ∈ registrations, (r.requireReady = false ↔ r.name ∈ preReadyAllowList) := by
  decide

/-- Claim C9: while the system is not ready, every registered operation
outside the pre-readiness allow-list (init, erase, getStatus) is rejected
with a `Not ready` error tagged with its sequence number and its handler is
not invoked, while requests for the allow-listed operations are routed to
their handler even before readiness. -/
theorem readiness_gate (r : Registration) (hr : r ∈ registrations) (seq : Nat) :
    (r.name ∉ preReadyAllowList →
      route false r seq = Routing.reject seq ("Not ready")) ∧
    (r.name ∈ preReadyAllowList → route false r seq = Routing.invoke seq) ∧
    route true r seq = Routing.invoke seq := by
  have hiff := registrations_requireReady_iff r hr
  refine ⟨?_, ?_, ?_⟩
  · intro hnot
    have hreq : r.requireReady = true := by
      cases hb : r.requireReady
      · exact absurd (hiff.mp hb) hnot
      · rfl
    unfold route
    rw [hreq]
    rfl
  · intro hmem
    have hreq : r.requireReady = false := hiff.mpr hmem
    unfold route
    rw [hreq]
    rfl
  · unfold route
    cases r.requireReady <;> rfl

/-- Claim C9 witness: the gate applied to a gated operation and to an
allow-listed operation. -/
theorem readiness_gate_witness :
    route false ⟨"postMessage", true⟩ 5 = Routing.reject 5 ("Not ready") ∧
    route false ⟨"getStatus", false⟩ 6 = Routing.invoke 6 :=
  ⟨(readiness_gate ⟨"postMessage", true⟩ (by decide) 5).1 (by decide),
   (readiness_gate ⟨"getStatus", false⟩ (by decide) 6).2.1 (by decide)⟩

/-! ## Claim C6 -/

theorem findChannelName_first_good (st : NetworkState) (base : String) (pk : Nat) :
    ∀ (fuel counter : Nat) (name : String),
      findChannelName st base pk fuel counter = some name →
      ∃ i, counter ≤ i ∧ name = candidateName base i ∧
        goodCandidate st pk (candidateName base i) = true ∧
        ∀ j, counter ≤ j → j < i → goodCandidate st pk (candidateName base j) = false := by
  intro fuel
  induction fuel with
  | zero =>
    intro counter name h
    exact absurd h (by simp [findChannelName])
  | succ fuel ih =>
    intro counter name h
    simp only [findChannelName] at h
    cases hg : getChannel st (candidateName base counter) with
    | none =>
      rw [hg] at h
      simp only [Option.some.injEq] at h
      refine ⟨counter, le_refl counter, h.symm, ?_, ?_⟩
      · unfold goodCandidate
        rw [hg]
      · intro j hj1 hj2
        omega
    | some existing =>
      rw [hg] at h
      simp only [] at h
      by_cases hid : existing.id = pk
      · rw [if_pos hid] at h
        simp only [Option.some.injEq] at h
        refine ⟨counter, le_refl counter, h.symm, ?_, ?_⟩
        · unfold goodCandidate
          rw [hg]
          simp [hid]
        · intro j hj1 hj2
          omega
      · rw [if_neg hid] at h
        obtain ⟨i, hle, hname, hgood, hall⟩ := ih (counter + 1) name h
        refine ⟨i, by omega, hname, hgood, ?_⟩
        intro j hj1 hj2
        by_cases hj : j = counter
        · subst hj
          unfold goodCandidate
          rw [hg]
          simp [hid]
        · exact hall j (by omega) hj2

/-- Claim C6: on invite acceptance the target channel name is chosen by
probing candidates starting from the invite channel name with numeric
suffixes -1, -2, ...: the chosen name is the first candidate that either no
existing channel carries, or that is carried by a channel whose id equals
the invite channel public key (in which case that channel is reused).  In
particular, with an existing channel general under key 0, an invite for
general with key 1 yields general-1, and an invite for general with key 0
reuses general. -/
theorem waitForInvite_channel_name_probing :
    (∀ (st : NetworkState) (base : String) (pk fuel : Nat) (name : String),
      findChannelName st base pk fuel 0 = some name →
      ∃ i, name = candidateName base i ∧
        goodCandidate st pk (candidateName base i) = true ∧
        ∀ j < i, goodCandidate st pk (candidateName base j) = false) ∧
    findChannelName c6State ("general") 1 2 0 = some ("general-1") ∧
    findChannelName c6State ("general") 0 2 0 = some ("general") ∧
    getChannel c6State ("general") = some ⟨0, "general"⟩ := by
  refine ⟨?_, by decide, by decide, by decide⟩
  intro st base pk fuel name h
  obtain ⟨i, _, hname, hgood, hall⟩ :=
    findChannelName_first_good st base pk fuel 0 name h
  exact ⟨i, hname, hgood, fun j hj => hall j (Nat.zero_le j) hj⟩

/-- Claim C6 witness: the probing characterization applied to the concrete
collision scenario. -/
theorem waitForInvite_channel_name_probing_witness :
    ∃ i, ("general-1" : String) = candidateName ("general") i ∧
      goodCandidate c6State 1 (candidateName ("general") i) = true ∧
      ∀ j < i, goodCandidate c6State 1 (candidateName ("general") j) = false :=
  waitForInvite_channel_name_probing.1 c6State ("general") 1 2 ("general-1")
    (by decide)

/-! ## Claim C7 -/

theorem identityByKey_congr (st st2 : NetworkState)
    (h : st.identities = st2.identities) (key : Nat) :
    identityByKey st key = identityByKey st2 key := by
  unfold identityByKey
  rw [h]

theorem waitForInviteResumeError_identities (st : NetworkState) (k : Nat) :
    (waitForInviteResumeError st k).2.identities = st.identities := by
  unfold waitForInviteResumeError
  cases pLookup st.pendingInvites k <;> rfl

theorem waitForInviteResumeError_entry (st : NetworkState) (k : Nat)
    (e2 : PendingInvite) (h : pLookup st.pendingInvites k = some e2) :
    pLookup (waitForInviteResumeError st k).2.pendingInvites k =
      some { e2 with waiter := none } := by
  simp only [waitForInviteResumeError, h]
  exact pLookup_pSet_self _ _ _

theorem waitForInviteBegin_ok (st : NetworkState) (k : Nat) (idn : Identity)
    (e : PendingInvite) (hi : identityByKey st k = some idn)
    (he : pLookup st.pendingInvites k = some e) :
    ∃ w st2, waitForInviteBegin st k = Except.ok (w, st2) := by
  cases hw : e.waiter with
  | none =>
    refine ⟨st.nextWaiter,
      { st with
          pendingInvites :=
            pSet st.pendingInvites k { e with waiter := some st.nextWaiter },
          nextWaiter := st.nextWaiter + 1 }, ?_⟩
    simp only [waitForInviteBegin, hi, he, hw]
  | some w1 =>
    refine ⟨st.nextWaiter,
      { st with
          cancelled := w1 :: st.cancelled,
          pendingInvites :=
            pSet st.pendingInvites k { e with waiter := some st.nextWaiter },
          nextWaiter := st.nextWaiter + 1 }, ?_⟩
    simp only [waitForInviteBegin, hi, he, hw, cancelWaiter]

/-- Claim C7: for every identity key with a pending invite, calling
waitForInvite while an earlier waiter is outstanding cancels that earlier
waiter first and installs the new waiter; the earlier (cancelled) wait
returns the sentinel false rather than propagating an error, clears the
waiter reference, and leaves the pending-invite entry intact (same request
id and cached request) so that the wait can be retried. -/
theorem waitForInvite_preemption (st : NetworkState) (k : Nat)
    (idn : Identity) (e : PendingInvite) (w1 : Nat)
    (hi : identityByKey st k = some idn)
    (he : pLookup st.pendingInvites k = some e)
    (hw : e.waiter = some w1) :
    ∃ st2,
      waitForInviteBegin st k = Except.ok (st.nextWaiter, st2) ∧
      w1 ∈ st2.cancelled ∧
      pLookup st2.pendingInvites k = some { e with waiter := some st.nextWaiter } ∧
      (waitForInviteResumeError st2 k).1 = Except.ok false ∧
      pLookup (waitForInviteResumeError st2 k).2.pendingInvites k =
        some { e with waiter := none } ∧
      (∃ w3 st4, waitForInviteBegin (waitForInviteResumeError st2 k).2 k =
        Except.ok (w3, st4)) := by
  set stB : NetworkState := { st with
      cancelled := w1 :: st.cancelled,
      pendingInvites :=
        pSet st.pendingInvites k { e with waiter := some st.nextWaiter },
      nextWaiter := st.nextWaiter + 1 } with hstB
  have hpi2 : pLookup stB.pendingInvites k =
      some { e with waiter := some st.nextWaiter } := by
    rw [hstB]
    exact pLookup_pSet_self st.pendingInvites k _
  have hid2 : identityByKey stB k = some idn := hi
  refine ⟨stB, ?_, ?_, hpi2, rfl, ?_, ?_⟩
  · rw [hstB]
    simp only [waitForInviteBegin, hi, he, hw, cancelWaiter]
  · rw [hstB]
    exact List.mem_cons_self w1 st.cancelled
  · exact waitForInviteResumeError_entry stB k
      { e with waiter := some st.nextWaiter } hpi2
  · have hid3 : identityByKey (waitForInviteResumeError stB k).2 k = some idn := by
      rw [identityByKey_congr (waitForInviteResumeError stB k).2 stB
        (waitForInviteResumeError_identities stB k)]
      exact hid2
    exact waitForInviteBegin_ok _ k idn _ hid3
      (waitForInviteResumeError_entry stB k
        { e with waiter := some st.nextWaiter } hpi2)

/-- Claim C7 witness: the preemption theorem applied to a concrete state
with an outstanding waiter 0 for identity key 2. -/
theorem waitForInvite_preemption_witness :
    ∃ st2,
      waitForInviteBegin c7State 2 = Except.ok (c7State.nextWaiter, st2) ∧
      0 ∈ st2.cancelled ∧
      pLookup st2.pendingInvites 2 =
        some { requestId := 10, encoded := 20, waiter := some c7State.nextWaiter } ∧
      (waitForInviteResumeError st2 2).1 = Except.ok false ∧
      pLookup (waitForInviteResumeError st2 2).2.pendingInvites 2 =
        some { requestId := 10, encoded := 20, waiter := none } ∧
      (∃ w3 st4, waitForInviteBegin (waitForInviteResumeError st2 2).2 2 =
        Except.ok (w3, st4)) :=
  waitForInvite_preemption c7State 2 ⟨2, "alice"⟩ ⟨10, 20, some 0⟩ 0
    (by decide) (by decide) (by decide)

/-! ## Claim C8 -/

/-- Claim C8: for every identity with an existing pending invite, calling
requestInvite again returns the same cached encoded request and does not
modify the pending-invite entry or any other state; in particular two
successive calls (the first creating the entry) return the identical
encoded request and the second call leaves the state unchanged. -/
theorem requestInvite_idempotent (st : NetworkState)
    (k rid enc rid2 enc2 : Nat) (idn : Identity)
    (hi : identityByKey st k = some idn) :
    (∀ ex, pLookup st.pendingInvites k = some ex →
      requestInvite st k rid enc = Except.ok (ex.encoded, st)) ∧
    (pLookup st.pendingInvites k = none →
      ∃ st1, requestInvite st k rid enc = Except.ok (enc, st1) ∧
        requestInvite st1 k rid2 enc2 = Except.ok (enc, st1)) := by
  constructor
  · intro ex hex
    simp only [requestInvite, hi, hex]
  · intro hnone
    refine ⟨{ st with
        pendingInvites := pSet st.pendingInvites k ⟨rid, enc, none⟩ }, ?_, ?_⟩
    · simp only [requestInvite, hi, hnone]
    · have hi1 : identityByKey
          { st with pendingInvites := pSet st.pendingInvites k ⟨rid, enc, none⟩ }
          k = some idn := hi
      have hex1 : pLookup (pSet st.pendingInvites k ⟨rid, enc, none⟩) k =
          some ⟨rid, enc, none⟩ := pLookup_pSet_self _ _ _
      simp only [requestInvite, hi1, hex1]

/-- Claim C8 witness: two successive requestInvite calls on a concrete
state return the identical encoded request and the second leaves the state
unchanged. -/
theorem requestInvite_idempotent_witness :
    ∃ st1, requestInvite c8State 2 10 20 = Except.ok (20, st1) ∧
      requestInvite st1 2 11 21 = Except.ok (20, st1) :=
  (requestInvite_idempotent c8State 2 10 20 11 21 ⟨2, "alice"⟩
    (by decide)).2 (by decide)

/-! ## Claim C10 -/

/-- Claim C10: for every renameIdentityPair call where newName equals the
name of an existing channel or an existing identity, the operation fails
with an error and the state is unchanged — both uniqueness checks (and the
channel and identity lookups) precede every mutation. -/
theorem renameIdentityPair_name_clash_rejected (st : NetworkState)
    (channelId identityKey : Option Nat) (newName : String)
    (hclash : (getChannel st newName).isSome = true ∨
      (getIdentity st newName).isSome = true) :
    (∃ msg, (renameIdentityPair st channelId identityKey newName).1 =
      Except.error msg) ∧
    (renameIdentityPair st channelId identityKey newName).2 = st := by
  simp only [renameIdentityPair]
  split
  · exact ⟨⟨_, rfl⟩, rfl⟩
  · split
    · exact ⟨⟨_, rfl⟩, rfl⟩
    · split
      · exact ⟨⟨_, rfl⟩, rfl⟩
      · split
        · exact ⟨⟨_, rfl⟩, rfl⟩
        · rename_i h3 h4
          cases hclash with
          | inl h => exact absurd h h3
          | inr h => exact absurd h h4

/-- Claim C10 witness: renaming the identity to the name of an existing
channel is rejected with the state unchanged. -/
theorem renameIdentityPair_name_clash_rejected_witness :
    (∃ msg, (renameIdentityPair c10State none (some 2) ("general")).1 =
      Except.error msg) ∧
    (renameIdentityPair c10State none (some 2) ("general")).2 = c10State :=
  renameIdentityPair_name_clash_rejected c10State none (some 2) ("general")
    (Or.inl (by decide))

end PeerLinks
